import Mathlib

/-!
Shallow embedding of the WebSocket push core of the fin-dashboard backend
(class WebSocketService): connection registry, subscription handling,
heartbeat monitor, price-history store, and the two broadcast cycles.
JS numbers that carry prices are modelled as rationals; JS truthiness of a
number is "defined and nonzero".
-/

/-- One retained point of a per-symbol price series (types/portfolio.ts
ChartDataPoint; the optional volume field is never used by the service). -/
structure ChartDataPoint where
  timestamp : Nat
  price : ℚ
deriving DecidableEq, Repr

/-- Quote returned by the external Quote Source for one symbol
(types/portfolio.ts StockQuote, restricted to the fields the service reads).
A missing regularMarketPrice is modelled as none. -/
structure StockQuote where
  regularMarketPrice : Option ℚ
  exchange : Option String
deriving DecidableEq, Repr

/-- A derived per-symbol price update (types/portfolio.ts StockPriceUpdate). -/
structure StockPriceUpdate where
  symbol : String
  exchange : String
  price : ℚ
  previousPrice : Option ℚ
  change : Option ℚ
  changePercent : Option ℚ
  timestamp : Nat
deriving DecidableEq, Repr

/-- The aggregated snapshot produced by the external Portfolio Builder.
Its internal structure is irrelevant to the push core, so it is kept
abstract as a plain value. -/
abbrev PortfolioData := Nat

/-- Outbound wire messages (the WebSocketMessage union of the source). -/
inductive OutMsg where
  | connected (timestamp : Nat)
  | subscribed (symbol : String) (timestamp : Nat)
  | portfolioUpdate (data : PortfolioData) (timestamp : Nat)
  | stockPriceSingle (data : StockPriceUpdate) (timestamp : Nat)
  | stockPriceBatch (stocks : List StockPriceUpdate) (timestamp : Nat)
  | errorMsg (error : String) (timestamp : Nat)
deriving DecidableEq, Repr

/-- Inbound control messages (handleClientMessage). A subscribe or
unsubscribe whose symbols field is not an array is modelled with none. -/
inductive InMsg where
  | subscribeStocks (symbols : Option (List String))
  | unsubscribeStocks (symbols : Option (List String))
  | subscribePortfolio
  | unsubscribePortfolio
  | other
deriving DecidableEq, Repr

/-- One registry entry (ClientSubscription together with the transport state
of its ws handle). wsOpen models readyState === OPEN; wsSendOk models
whether a send on the transport succeeds or throws. The JS Set of
subscribed symbols is modelled as its insertion-ordered duplicate-free
list. -/
structure Client where
  id : Nat
  isAlive : Bool
  wsOpen : Bool
  wsSendOk : Bool
  subscribedStocks : List String
  subscribedToPortfolio : Bool
deriving DecidableEq, Repr

/-- The per-symbol price history store (Map of symbol key to series),
modelled as an insertion-ordered association list. -/
abbrev Store := List (String × List ChartDataPoint)

/-- Whole-service state (the fields of class WebSocketService that the
verified operations touch). The heartbeat setInterval at initialize
discards its handle, so no field of the class stores it; the boolean here
models whether that timer exists at the runtime level. -/
structure ServiceState where
  clients : List Client
  priceHistory : Store
  maxHistoryPoints : Nat
  updateInterval : Option Nat
  stockUpdateInterval : Option Nat
  heartbeatTimerActive : Bool
deriving DecidableEq, Repr

/-- Default history cap (field initializer maxHistoryPoints = 100). -/
def maxHistoryPointsDefault : Nat := 100

/-- The registry's current ids. -/
def ids (clients : List Client) : List Nat :=
  clients.map (fun c => c.id)

/-- JS Set.add: append the element unless already present. -/
def addSym (l : List String) (s : String) : List String :=
  if s ∈ l then l else l ++ [s]

/-- JS Set.delete: remove the element if present. -/
def delSym (l : List String) (s : String) : List String :=
  l.filter (fun x => x ≠ s)

/-- The bare symbol of a subscription key: symbol.includes(':') ?
symbol.split(':')[0] : symbol, i.e. the prefix before the first colon. -/
def bareSymbol (s : String) : String :=
  String.mk (s.data.takeWhile (fun ch => ch ≠ ':'))

/-- Outcome of one sendToClient call on a connection: the delivered
message (if any) and the id to delete from the registry (if the send
threw). A non-open transport is skipped silently. -/
def sendOutcome (c : Client) (m : OutMsg) : Option (Nat × OutMsg) × Option Nat :=
  if c.wsOpen then
    if c.wsSendOk then (some (c.id, m), none) else (none, some c.id)
  else (none, none)

/-- Fan a per-client message out over a list of targets, collecting the
delivered (id, message) pairs and the ids deleted because their send
threw (the forEach loops of broadcast / broadcastPortfolioUpdate /
broadcastStockPriceUpdates, which all inline the same readyState check
and try/catch-delete as sendToClient). -/
def fanOut (targets : List Client) (msgOf : Client → Option OutMsg) :
    List (Nat × OutMsg) × List Nat :=
  (targets.filterMap (fun c => (msgOf c).bind (fun m => (sendOutcome c m).1)),
   targets.filterMap (fun c => (msgOf c).bind (fun m => (sendOutcome c m).2)))

/-- Messages delivered to one connection id, in order, within one batch of
sends. -/
def deliveredTo (sends : List (Nat × OutMsg)) (i : Nat) : List OutMsg :=
  (sends.filter (fun p => p.1 = i)).map (fun p => p.2)

/-- The broadcast method: send one message to every registered connection,
skipping non-open transports and deleting connections whose send throws. -/
def broadcast (clients : List Client) (m : OutMsg) :
    List Client × List (Nat × OutMsg) :=
  let out := fanOut clients (fun _ => some m)
  (clients.filter (fun c => c.id ∉ out.2), out.1)

/-- Series stored for a key, defaulting to the empty series
(this.priceHistory.get(symbol) || []). -/
def lookupSeries (st : Store) (k : String) : List ChartDataPoint :=
  ((st.find? (fun e => e.1 = k)).map (fun e => e.2)).getD []

/-- Map.set on the store: replace the value of an existing key in place,
otherwise append the new key at the end. -/
def setSeries (st : Store) (k : String) (v : List ChartDataPoint) : Store :=
  if st.any (fun e => e.1 = k) then
    st.map (fun e => if e.1 = k then (k, v) else e)
  else st ++ [(k, v)]

/-- The series-level body of updatePriceHistory: push the new point, then
shift off the oldest one if the length now exceeds the cap. -/
def recordPoint (maxPts : Nat) (h : List ChartDataPoint)
    (pt : ChartDataPoint) : List ChartDataPoint :=
  let h2 := h ++ [pt]
  if maxPts < h2.length then h2.drop 1 else h2

/-- updatePriceHistory: create the series lazily, append the point and
trim to the cap. -/
def updatePriceHistory (maxPts : Nat) (st : Store) (k : String) (p : ℚ)
    (ts : Nat) : Store :=
  setSeries st k (recordPoint maxPts (lookupSeries st k) ⟨ts, p⟩)

/-- Union of the subscribed symbols across the registry, in Set insertion
order (the subscribedStocks accumulation loop of
broadcastStockPriceUpdates). -/
def computeSubscribedUnion (clients : List Client) : List String :=
  clients.foldl (fun acc c => c.subscribedStocks.foldl addSym acc) []

/-- The exchange field of an emitted update: quote.exchange || 'NSE'
(the empty string is falsy in JS). -/
def exchangeOf (q : StockQuote) : String :=
  match q.exchange with
  | some e => if e = "" then "NSE" else e
  | none => "NSE"

/-- One iteration of the quotes.forEach loop of broadcastStockPriceUpdates:
resolve the subscription key whose bare symbol equals the quote's key,
and when both the key and the price are truthy, read the previous latest
price, build the update and record the new point. The accumulator pair
is (price-history store, updates built so far). -/
def processQuote (maxPts : Nat) (subscribedUnion : List String) (now : Nat)
    (acc : Store × List StockPriceUpdate) (entry : String × StockQuote) :
    Store × List StockPriceUpdate :=
  match subscribedUnion.find? (fun s => bareSymbol s = entry.1),
        entry.2.regularMarketPrice with
  | some key, some p =>
    if key ≠ "" ∧ p ≠ 0 then
      let series := lookupSeries acc.1 key
      let previousPrice : Option ℚ := series.getLast?.map (fun pt => pt.price)
      let update : StockPriceUpdate :=
        { symbol := entry.1
          exchange := exchangeOf entry.2
          price := p
          previousPrice := previousPrice
          change :=
            match previousPrice with
            | some p0 => if p0 ≠ 0 then some (p - p0) else none
            | none => none
          changePercent :=
            match previousPrice with
            | some p0 => if p0 ≠ 0 then some ((p - p0) / p0 * 100) else none
            | none => none
          timestamp := now }
      (updatePriceHistory maxPts acc.1 key p now, acc.2 ++ [update])
    else acc
  | _, _ => acc

/-- The updates built by one price cycle from a quote batch. -/
def cycleUpdates (st : ServiceState) (quotes : List (String × StockQuote))
    (now : Nat) : Store × List StockPriceUpdate :=
  quotes.foldl
    (processQuote st.maxHistoryPoints (computeSubscribedUnion st.clients) now)
    (st.priceHistory, [])

/-- The message (if any) one connection gets in the price fan-out: nothing
when its set is empty or no update's symbol is in its set, the
single-update shape for exactly one match, the batched shape otherwise. -/
def clientStockMsg (updates : List StockPriceUpdate) (now : Nat)
    (c : Client) : Option OutMsg :=
  if c.subscribedStocks.isEmpty then none
  else
    match updates.filter (fun u => c.subscribedStocks.contains u.symbol) with
    | [] => none
    | [u] => some (OutMsg.stockPriceSingle u now)
    | us => some (OutMsg.stockPriceBatch us now)

/-- broadcastStockPriceUpdates: skip when no symbol is subscribed, build
the updates from the quote batch (threading the history store), skip when
none was built, otherwise fan out per-connection filtered messages. -/
def broadcastStockPriceUpdates (st : ServiceState)
    (quotes : List (String × StockQuote)) (now : Nat) :
    ServiceState × List (Nat × OutMsg) :=
  let subscribedUnion := computeSubscribedUnion st.clients
  if subscribedUnion.isEmpty then (st, [])
  else
    let built := cycleUpdates st quotes now
    if built.2.isEmpty then ({st with priceHistory := built.1}, [])
    else
      let out := fanOut st.clients (clientStockMsg built.2 now)
      ({st with
          clients := st.clients.filter (fun c => c.id ∉ out.2)
          priceHistory := built.1},
       out.1)

/-- broadcastPortfolioUpdate: skip (without calling the Portfolio Builder)
when no connection is portfolio-subscribed; on a successful build send the
snapshot to the subscribed connections; on a failed build broadcast an
error message to every connection. The Bool records whether the builder
was called. -/
def broadcastPortfolioUpdate (clients : List Client)
    (builder : Except String PortfolioData) (now : Nat) :
    List Client × List (Nat × OutMsg) × Bool :=
  let subscribedClients := clients.filter (fun c => c.subscribedToPortfolio)
  if subscribedClients.isEmpty then (clients, [], false)
  else
    match builder with
    | Except.ok pd =>
      let out := fanOut subscribedClients
        (fun _ => some (OutMsg.portfolioUpdate pd now))
      (clients.filter (fun c => c.id ∉ out.2), out.1, true)
    | Except.error e =>
      let out := fanOut clients (fun _ => some (OutMsg.errorMsg e now))
      (clients.filter (fun c => c.id ∉ out.2), out.1, true)

/-- Array.prototype.join(',') on the requested symbol list. -/
def joinComma (syms : List String) : String :=
  String.intercalate (",") syms

/-- handleClientMessage: route one parsed inbound message for the
connection with the given id. subscribe_stocks updates the set and sends
a subscribed confirmation (whose send, if it throws, deletes the
connection); unsubscribe_stocks and the portfolio toggles change state
silently; a missing registry entry, a non-array symbols payload or an
unrecognized type leave everything unchanged. -/
def handleClientMessage (clients : List Client) (i : Nat) (m : InMsg)
    (now : Nat) : List Client × List (Nat × OutMsg) :=
  match clients.find? (fun c => c.id = i) with
  | none => (clients, [])
  | some sub =>
    match m with
    | InMsg.subscribeStocks (some syms) =>
      let sub' := {sub with subscribedStocks := syms.foldl addSym sub.subscribedStocks}
      let updated := clients.map (fun d => if d.id = i then sub' else d)
      let out := sendOutcome sub' (OutMsg.subscribed (joinComma syms) now)
      (match out.2 with
       | some _ => updated.filter (fun d => d.id ≠ i)
       | none => updated,
       out.1.toList)
    | InMsg.subscribeStocks none => (clients, [])
    | InMsg.unsubscribeStocks (some syms) =>
      (clients.map (fun d =>
        if d.id = i then {sub with subscribedStocks := syms.foldl delSym sub.subscribedStocks} else d),
       [])
    | InMsg.unsubscribeStocks none => (clients, [])
    | InMsg.subscribePortfolio =>
      (clients.map (fun d => if d.id = i then {sub with subscribedToPortfolio := true} else d), [])
    | InMsg.unsubscribePortfolio =>
      (clients.map (fun d => if d.id = i then {sub with subscribedToPortfolio := false} else d), [])
    | InMsg.other => (clients, [])

/-- The interest set currently recorded for a connection id. -/
def interestSet (clients : List Client) (i : Nat) : Option (List String) :=
  (clients.find? (fun c => c.id = i)).map (fun c => c.subscribedStocks)

/-- One tick of the heartbeat setInterval: connections found with
isAlive = false are terminated and deleted; the rest have the flag
cleared and are pinged. Returns (registry after, terminated ids,
pinged ids). -/
def heartbeatTick (clients : List Client) :
    List Client × List Nat × List Nat :=
  ((clients.filter (fun c => c.isAlive)).map (fun c => {c with isAlive := false}),
   (clients.filter (fun c => !c.isAlive)).map (fun c => c.id),
   (clients.filter (fun c => c.isAlive)).map (fun c => c.id))

/-- The pong handler: ws.isAlive = true on the acknowledging connection. -/
def handlePong (clients : List Client) (i : Nat) : List Client :=
  clients.map (fun c => if c.id = i then {c with isAlive := true} else c)

/-- Events the heartbeat machine reacts to. -/
inductive HBEvent where
  | tick
  | pong (i : Nat)
deriving DecidableEq, Repr

/-- One heartbeat-machine transition. -/
def hbStep (clients : List Client) : HBEvent → List Client
  | HBEvent.tick => (heartbeatTick clients).1
  | HBEvent.pong i => handlePong clients i

/-- Run the heartbeat machine over an event trace. -/
def hbRun (clients : List Client) (evs : List HBEvent) : List Client :=
  evs.foldl hbStep clients

/-- Transport data of a freshly accepted ws handle. -/
structure WsInfo where
  id : Nat
  wsOpen : Bool
  wsSendOk : Bool
deriving DecidableEq, Repr

/-- The connection handler of initialize: mark the handle alive, register
a record with an empty symbol set and the portfolio flag set, send the
connected message to the new connection, then run a portfolio update
cycle (whose builder outcome is passed in). -/
def handleConnection (clients : List Client) (w : WsInfo)
    (builder : Except String PortfolioData) (now : Nat) :
    List Client × List (Nat × OutMsg) :=
  let newClient : Client :=
    { id := w.id
      isAlive := true
      wsOpen := w.wsOpen
      wsSendOk := w.wsSendOk
      subscribedStocks := []
      subscribedToPortfolio := true }
  let cs1 := clients ++ [newClient]
  let out := sendOutcome newClient (OutMsg.connected now)
  let cs2 :=
    match out.2 with
    | some _ => cs1.filter (fun c => c.id ≠ w.id)
    | none => cs1
  let res := broadcastPortfolioUpdate cs2 builder now
  (res.1, out.1.toList ++ res.2.1)

/-- The initialize method: arm the portfolio timer, the price timer and
the heartbeat timer. The heartbeat setInterval's handle is discarded by
the source, so only the runtime-level boolean records that the timer
exists. -/
def initService (st : ServiceState) : ServiceState :=
  {st with
    updateInterval := some 1
    stockUpdateInterval := some 2
    heartbeatTimerActive := true}

/-- close: clear the two stored interval handles, close every registered
connection, empty the registry and the price history. The heartbeat
timer's handle was never stored, so nothing clears it and
heartbeatTimerActive is unchanged. Returns the new state and the ids of
the connections that were closed. -/
def close (st : ServiceState) : ServiceState × List Nat :=
  ({st with
      updateInterval := none
      stockUpdateInterval := none
      clients := []
      priceHistory := []},
   st.clients.map (fun c => c.id))

/-- Every price retained anywhere in the store is nonzero. -/
def storeNonzero (st : Store) : Prop :=
  ∀ e ∈ st, ∀ pt ∈ e.2, pt.price ≠ 0

instance (st : Store) : Decidable (storeNonzero st) := by
  unfold storeNonzero
  infer_instance

/-- Recognizer for the portfolio_update shape. -/
def isPortfolioUpdateMsg : OutMsg → Bool
  | OutMsg.portfolioUpdate _ _ => true
  | _ => false

theorem deliveredTo_nil (i : Nat) : deliveredTo [] i = [] := rfl

theorem deliveredTo_cons (p : Nat × OutMsg) (l : List (Nat × OutMsg)) (i : Nat) :
    deliveredTo (p :: l) i =
      if p.1 = i then p.2 :: deliveredTo l i else deliveredTo l i := by
  simp only [deliveredTo, List.filter_cons]
  split
  · next h =>
    rw [if_pos (by simpa using h)]
    rfl
  · next h =>
    rw [if_neg (by simpa using h)]

theorem deliveredTo_append (l₁ l₂ : List (Nat × OutMsg)) (i : Nat) :
    deliveredTo (l₁ ++ l₂) i = deliveredTo l₁ i ++ deliveredTo l₂ i := by
  simp [deliveredTo]

/-- Delivery in a fan-out, restricted to one id: exactly the messages the
per-client function assigns to the open, send-healthy registry entries
with that id. -/
theorem deliveredTo_fanOut (targets : List Client)
    (msgOf : Client → Option OutMsg) (i : Nat) :
    deliveredTo (fanOut targets msgOf).1 i =
      (targets.filter (fun c => c.id = i)).filterMap
        (fun c => if c.wsOpen = true ∧ c.wsSendOk = true then msgOf c else none) := by
  simp only [fanOut, deliveredTo]
  rw [List.filter_filterMap, List.map_filterMap, List.filterMap_filter]
  apply List.filterMap_congr
  intro c _
  cases hm : msgOf c <;>
    by_cases ho : c.wsOpen = true <;>
    by_cases hs : c.wsSendOk = true <;>
    by_cases hid : c.id = i <;>
    simp [hm, ho, hs, hid, sendOutcome, Option.filter]

/-- An id is deleted by a fan-out exactly when some open registry entry
with that id had a message to send and its send threw. -/
theorem mem_fanOut_removed (targets : List Client)
    (msgOf : Client → Option OutMsg) (i : Nat) :
    i ∈ (fanOut targets msgOf).2 ↔
      ∃ c ∈ targets, (msgOf c).isSome ∧ c.wsOpen = true ∧
        c.wsSendOk = false ∧ c.id = i := by
  simp only [fanOut, List.mem_filterMap]
  constructor
  · rintro ⟨c, hc, h⟩
    cases hm : msgOf c with
    | none => rw [hm] at h; simp at h
    | some m =>
      rw [hm] at h
      simp only [Option.some_bind, sendOutcome] at h
      by_cases ho : c.wsOpen = true
      · by_cases hs : c.wsSendOk = true
        · rw [if_pos ho, if_pos hs] at h; simp at h
        · rw [if_pos ho, if_neg hs] at h
          refine ⟨c, hc, by simp [hm], ho, by simpa using hs, by simpa using h⟩
      · rw [if_neg ho] at h; simp at h
  · rintro ⟨c, hc, hm, ho, hs, hi⟩
    refine ⟨c, hc, ?_⟩
    cases hmm : msgOf c with
    | none => rw [hmm] at hm; simp at hm
    | some m =>
      simp only [Option.some_bind, sendOutcome, if_pos ho, hs]
      simp [hi]

/-- Fan-out only delivers to ids present among its targets. -/
theorem fanOut_sends_mem (targets : List Client)
    (msgOf : Client → Option OutMsg) (p : Nat × OutMsg)
    (h : p ∈ (fanOut targets msgOf).1) : p.1 ∈ ids targets := by
  simp only [fanOut, List.mem_filterMap] at h
  obtain ⟨c, hc, hbind⟩ := h
  cases hm : msgOf c with
  | none => rw [hm] at hbind; simp at hbind
  | some m =>
    rw [hm] at hbind
    simp only [Option.some_bind, sendOutcome] at hbind
    by_cases ho : c.wsOpen = true
    · by_cases hs : c.wsSendOk = true
      · rw [if_pos ho, if_pos hs] at hbind
        simp only [Option.some_inj] at hbind
        subst hbind
        exact List.mem_map_of_mem _ hc
      · rw [if_pos ho, if_neg hs] at hbind; simp at hbind
    · rw [if_neg ho] at hbind; simp at hbind

/-- Every message a fan-out delivers is one the per-client function
produced for a target with that id. -/
theorem fanOut_sends_shape (targets : List Client)
    (msgOf : Client → Option OutMsg) (p : Nat × OutMsg)
    (h : p ∈ (fanOut targets msgOf).1) :
    ∃ c ∈ targets, c.id = p.1 ∧ msgOf c = some p.2 := by
  simp only [fanOut, List.mem_filterMap] at h
  obtain ⟨c, hc, hbind⟩ := h
  cases hm : msgOf c with
  | none => rw [hm] at hbind; simp at hbind
  | some m =>
    rw [hm] at hbind
    simp only [Option.some_bind, sendOutcome] at hbind
    by_cases ho : c.wsOpen = true
    · by_cases hs : c.wsSendOk = true
      · rw [if_pos ho, if_pos hs] at hbind
        simp only [Option.some_inj] at hbind
        subst hbind
        exact ⟨c, hc, rfl, hm⟩
      · rw [if_pos ho, if_neg hs] at hbind; simp at hbind
    · rw [if_neg ho] at hbind; simp at hbind

theorem ids_cons (c : Client) (l : List Client) :
    ids (c :: l) = c.id :: ids l := rfl

theorem id_mem_ids {l : List Client} {c : Client} (h : c ∈ l) :
    c.id ∈ ids l :=
  List.mem_map_of_mem _ h

/-- With duplicate-free ids, two registry entries with the same id are the
same entry. -/
theorem eq_of_mem_id_eq {l : List Client} {c d : Client}
    (hn : (ids l).Nodup) (hc : c ∈ l) (hd : d ∈ l) (h : d.id = c.id) :
    d = c := by
  induction l with
  | nil => cases hc
  | cons x xs ih =>
    rw [ids_cons, List.nodup_cons] at hn
    rcases List.mem_cons.mp hc with hcx | hcs
    · rcases List.mem_cons.mp hd with hdx | hds
      · rw [hdx, hcx]
      · exfalso
        apply hn.1
        have h1 : d.id ∈ ids xs := id_mem_ids hds
        rw [h, hcx] at h1
        exact h1
    · rcases List.mem_cons.mp hd with hdx | hds
      · exfalso
        apply hn.1
        have h1 : c.id ∈ ids xs := id_mem_ids hcs
        rw [← h, hdx] at h1
        exact h1
      · exact ih hn.2 hcs hds

/-- With duplicate-free ids, filtering the registry on one member's id
yields exactly that member. -/
theorem filter_id_eq_single {l : List Client} {c : Client}
    (hn : (ids l).Nodup) (hc : c ∈ l) :
    l.filter (fun d => d.id = c.id) = [c] := by
  induction l with
  | nil => cases hc
  | cons x xs ih =>
    rw [ids_cons, List.nodup_cons] at hn
    rw [List.filter_cons]
    rcases List.mem_cons.mp hc with hcx | hcs
    · subst hcx
      rw [if_pos (by simp)]
      have : xs.filter (fun d => d.id = c.id) = [] := by
        rw [List.filter_eq_nil_iff]
        intro d hd
        simp only [decide_eq_true_eq]
        intro hdc
        apply hn.1
        have h1 := id_mem_ids hd
        rw [hdc] at h1
        exact h1
      rw [this]
    · have hne : ¬(x.id = c.id) := by
        intro hx
        apply hn.1
        rw [hx]
        exact id_mem_ids hcs
      rw [if_neg (by simpa using hne)]
      exact ih hn.2 hcs

/-- With duplicate-free ids, find? on one member's id yields that member. -/
theorem find?_id_eq {l : List Client} {c : Client}
    (hn : (ids l).Nodup) (hc : c ∈ l) :
    l.find? (fun d => d.id = c.id) = some c := by
  induction l with
  | nil => cases hc
  | cons x xs ih =>
    rw [ids_cons, List.nodup_cons] at hn
    rcases List.mem_cons.mp hc with hcx | hcs
    · subst hcx
      exact List.find?_cons_of_pos _ (by simp)
    · have hne : ¬(x.id = c.id) := by
        intro hx
        apply hn.1
        rw [hx]
        exact id_mem_ids hcs
      rw [List.find?_cons_of_neg _ (by simpa using hne)]
      exact ih hn.2 hcs

/-- Updating the entry that find? locates makes find? locate the update. -/
theorem find?_map_update {l : List Client} {i : Nat} {c : Client}
    (c' : Client)
    (h : l.find? (fun d => d.id = i) = some c) (h' : c'.id = i) :
    (l.map (fun d => if d.id = i then c' else d)).find? (fun d => d.id = i)
      = some c' := by
  induction l with
  | nil => simp at h
  | cons x xs ih =>
    rw [List.map_cons]
    by_cases hx : x.id = i
    · rw [if_pos hx]
      exact List.find?_cons_of_pos _ (by simpa using h')
    · rw [List.find?_cons_of_neg _ (by simpa using hx)] at h
      rw [if_neg hx, List.find?_cons_of_neg _ (by simpa using hx)]
      exact ih h

theorem mem_addSym {l : List String} {s x : String} :
    x ∈ addSym l s ↔ x ∈ l ∨ x = s := by
  unfold addSym
  split
  · next h =>
    constructor
    · exact Or.inl
    · rintro (hx | rfl)
      · exact hx
      · exact h
  · simp

theorem mem_foldl_addSym {syms l : List String} {x : String} :
    x ∈ syms.foldl addSym l ↔ x ∈ l ∨ x ∈ syms := by
  induction syms generalizing l with
  | nil => simp
  | cons s ss ih =>
    rw [List.foldl_cons, ih, mem_addSym]
    simp only [List.mem_cons]
    tauto

theorem foldl_addSym_sat {syms l : List String} (h : ∀ s ∈ syms, s ∈ l) :
    syms.foldl addSym l = l := by
  induction syms with
  | nil => rfl
  | cons s ss ih =>
    rw [List.foldl_cons]
    rw [addSym, if_pos (h s (List.mem_cons_self _ _))]
    exact ih (fun t ht => h t (List.mem_cons_of_mem _ ht))

theorem mem_delSym {l : List String} {s x : String} :
    x ∈ delSym l s ↔ x ∈ l ∧ x ≠ s := by
  simp [delSym]

theorem mem_foldl_delSym {syms l : List String} {x : String} :
    x ∈ syms.foldl delSym l ↔ x ∈ l ∧ x ∉ syms := by
  induction syms generalizing l with
  | nil => simp
  | cons s ss ih =>
    rw [List.foldl_cons, ih, mem_delSym]
    simp only [List.mem_cons]
    tauto

theorem foldl_delSym_sat {syms l : List String} (h : ∀ s ∈ syms, s ∉ l) :
    syms.foldl delSym l = l := by
  induction syms with
  | nil => rfl
  | cons s ss ih =>
    rw [List.foldl_cons]
    have : delSym l s = l :=
      List.filter_eq_self.mpr (fun x hx => by
        simp only [decide_eq_true_eq, ne_eq]
        intro hxs
        exact h s (List.mem_cons_self _ _) (hxs ▸ hx))
    rw [this]
    exact ih (fun t ht => h t (List.mem_cons_of_mem _ ht))

/-- A symbol is in the cycle's subscribed union exactly when some
registered connection subscribed it. -/
theorem mem_computeSubscribedUnion {clients : List Client} {x : String} :
    x ∈ computeSubscribedUnion clients ↔
      ∃ c ∈ clients, x ∈ c.subscribedStocks := by
  have general : ∀ (cs : List Client) (acc : List String),
      x ∈ cs.foldl (fun acc c => c.subscribedStocks.foldl addSym acc) acc ↔
        x ∈ acc ∨ ∃ c ∈ cs, x ∈ c.subscribedStocks := by
    intro cs
    induction cs with
    | nil => simp
    | cons c cs ih =>
      intro acc
      rw [List.foldl_cons, ih, mem_foldl_addSym]
      simp only [List.mem_cons]
      constructor
      · rintro ((h | h) | ⟨d, hd, hx⟩)
        · exact Or.inl h
        · exact Or.inr ⟨c, Or.inl rfl, h⟩
        · exact Or.inr ⟨d, Or.inr hd, hx⟩
      · rintro (h | ⟨d, (rfl | hd), hx⟩)
        · exact Or.inl (Or.inl h)
        · exact Or.inl (Or.inr hx)
        · exact Or.inr ⟨d, hd, hx⟩
  rw [computeSubscribedUnion, general]
  simp

theorem drop_shift (l ps : List ChartDataPoint) (hl : 1 ≤ l.length) :
    ((l.drop 1) ++ ps).drop ps.length = (l ++ ps).drop (ps.length + 1) := by
  rw [List.drop_append_eq_append_drop, List.drop_append_eq_append_drop,
    List.drop_drop]
  congr 1
  · congr 1
    omega
  · congr 1
    rw [List.length_drop]
    omega

/-- Folding the series-level record over a point list: the result is the
input prefixed by the starting series, with everything beyond the cap
dropped from the front. -/
theorem foldl_recordPoint (maxPts : Nat) :
    ∀ (pts h : List ChartDataPoint), h.length ≤ maxPts →
      pts.foldl (recordPoint maxPts) h =
        (h ++ pts).drop (h.length + pts.length - maxPts) := by
  intro pts
  induction pts with
  | nil =>
    intro h hh
    simp only [List.foldl_nil, List.append_nil, List.length_nil, Nat.add_zero]
    rw [Nat.sub_eq_zero_of_le hh, List.drop_zero]
  | cons p ps ih =>
    intro h hh
    rw [List.foldl_cons]
    by_cases hcase : h.length + 1 ≤ maxPts
    · have hrec : recordPoint maxPts h p = h ++ [p] := by
        unfold recordPoint
        rw [if_neg (by simp; omega)]
      rw [hrec, ih (h ++ [p]) (by simp; omega)]
      rw [show h ++ p :: ps = (h ++ [p]) ++ ps by simp]
      congr 1
      simp
      omega
    · have hlen : h.length = maxPts := by omega
      have hrec : recordPoint maxPts h p = (h ++ [p]).drop 1 := by
        unfold recordPoint
        rw [if_pos (by simp; omega)]
      rw [hrec, ih ((h ++ [p]).drop 1) (by simp; omega)]
      have e1 : ((h ++ [p]).drop 1).length + ps.length - maxPts = ps.length := by
        rw [List.length_drop, List.length_append]
        simp
        omega
      have e2 : h.length + (p :: ps).length - maxPts = ps.length + 1 := by
        simp
        omega
      rw [e1, e2, show h ++ p :: ps = (h ++ [p]) ++ ps by simp]
      exact drop_shift (h ++ [p]) ps (by simp)

theorem mem_lookupSeries {st : Store} {k : String} {pt : ChartDataPoint}
    (hs : storeNonzero st) (h : pt ∈ lookupSeries st k) : pt.price ≠ 0 := by
  unfold lookupSeries at h
  cases hf : st.find? (fun e => e.1 = k) with
  | none => rw [hf] at h; simp at h
  | some e =>
    rw [hf] at h
    simp only [Option.map_some', Option.getD_some] at h
    exact hs e (List.mem_of_find?_eq_some hf) pt h

theorem storeNonzero_setSeries {st : Store} {k : String}
    {v : List ChartDataPoint} (hs : storeNonzero st)
    (hv : ∀ pt ∈ v, pt.price ≠ 0) : storeNonzero (setSeries st k v) := by
  unfold setSeries
  split
  · intro e he pt hpt
    rcases List.mem_map.mp he with ⟨e0, he0, heq⟩
    by_cases h0 : e0.1 = k
    · rw [if_pos h0] at heq
      rw [← heq] at hpt
      exact hv pt hpt
    · rw [if_neg h0] at heq
      rw [← heq] at hpt
      exact hs e0 he0 pt hpt
  · intro e he pt hpt
    rcases List.mem_append.mp he with h1 | h2
    · exact hs e h1 pt hpt
    · have : e = (k, v) := by simpa using h2
      rw [this] at hpt
      exact hv pt hpt

theorem storeNonzero_updatePriceHistory {maxPts : Nat} {st : Store}
    {k : String} {p : ℚ} {ts : Nat} (hs : storeNonzero st) (hp : p ≠ 0) :
    storeNonzero (updatePriceHistory maxPts st k p ts) := by
  apply storeNonzero_setSeries hs
  intro pt hpt
  unfold recordPoint at hpt
  have hpt2 : pt ∈ lookupSeries st k ++ [ChartDataPoint.mk ts p] := by
    by_cases hc : maxPts < (lookupSeries st k ++ [ChartDataPoint.mk ts p]).length
    · rw [if_pos hc] at hpt
      exact List.mem_of_mem_drop hpt
    · rw [if_neg hc] at hpt
      exact hpt
  rcases List.mem_append.mp hpt2 with h1 | h2
  · exact mem_lookupSeries hs h1
  · have : pt = ChartDataPoint.mk ts p := by simpa using h2
    rw [this]
    exact hp

theorem storeNonzero_processQuote {maxPts : Nat} {subscribedUnion : List String}
    {now : Nat} {acc : Store × List StockPriceUpdate}
    {entry : String × StockQuote} (hs : storeNonzero acc.1) :
    storeNonzero (processQuote maxPts subscribedUnion now acc entry).1 := by
  unfold processQuote
  split
  · split
    · next hg => exact storeNonzero_updatePriceHistory hs hg.2
    · exact hs
  · exact hs

theorem storeNonzero_cycleFold {maxPts : Nat} {subscribedUnion : List String}
    {now : Nat} :
    ∀ (quotes : List (String × StockQuote))
      (acc : Store × List StockPriceUpdate), storeNonzero acc.1 →
      storeNonzero
        ((quotes.foldl (processQuote maxPts subscribedUnion now) acc)).1 := by
  intro quotes
  induction quotes with
  | nil => intro acc h; exact h
  | cons q qs ih =>
    intro acc h
    rw [List.foldl_cons]
    exact ih _ (storeNonzero_processQuote h)

theorem heartbeatTick_mem_isAlive_false {cs : List Client} {d : Client}
    (hd : d ∈ (heartbeatTick cs).1) : d.isAlive = false := by
  unfold heartbeatTick at hd
  rcases List.mem_map.mp hd with ⟨e, he, heq⟩
  rw [← heq]

/-- A tick removes every id whose entries are all in the Suspect state. -/
theorem heartbeatTick_not_mem {cs : List Client} {i : Nat}
    (h : ∀ d ∈ cs, d.id = i → d.isAlive = false) :
    i ∉ ids (heartbeatTick cs).1 := by
  intro hmem
  unfold ids heartbeatTick at hmem
  rcases List.mem_map.mp hmem with ⟨d, hd, hdi⟩
  rcases List.mem_map.mp hd with ⟨e, he, heq⟩
  have he2 := List.mem_filter.mp he
  have hei : e.id = i := by rw [← heq] at hdi; exact hdi
  have := h e he2.1 hei
  rw [this] at he2
  exact absurd he2.2 (by simp)

theorem handlePong_preserve {cs : List Client} {i j : Nat} (hne : j ≠ i)
    (h : ∀ d ∈ cs, d.id = i → d.isAlive = false) :
    ∀ d ∈ handlePong cs j, d.id = i → d.isAlive = false := by
  intro d hd hdi
  unfold handlePong at hd
  rcases List.mem_map.mp hd with ⟨e, he, heq⟩
  by_cases hej : e.id = j
  · rw [← heq, if_pos hej] at hdi
    exfalso
    apply hne
    rw [← hej]
    exact hdi
  · rw [if_neg hej] at heq
    rw [← heq] at hdi ⊢
    exact h e he hdi

/-- Running the machine over events that are neither ticks nor probe
acknowledgments of a given id keeps that id's entries Suspect. -/
theorem hbRun_preserve_suspect {i : Nat} :
    ∀ (evs : List HBEvent) (cs : List Client),
      (∀ e ∈ evs, e ≠ HBEvent.tick ∧ e ≠ HBEvent.pong i) →
      (∀ d ∈ cs, d.id = i → d.isAlive = false) →
      ∀ d ∈ hbRun cs evs, d.id = i → d.isAlive = false := by
  intro evs
  induction evs with
  | nil => intro cs _ h; exact h
  | cons e es ih =>
    intro cs hevs h
    rw [hbRun, List.foldl_cons]
    cases e with
    | tick => exact absurd rfl (hevs _ (List.mem_cons_self _ _)).1
    | pong j =>
      have hne : j ≠ i := by
        intro hji
        exact (hevs _ (List.mem_cons_self _ _)).2 (by rw [hji])
      exact ih _ (fun x hx => hevs x (List.mem_cons_of_mem _ hx))
        (handlePong_preserve hne h)

theorem filterMap_single {α β : Type} (f : α → Option β) (a : α) :
    List.filterMap f [a] = (f a).toList := by
  cases h : f a <;> simp [h]

theorem find?_eq_none_of_id {clients : List Client} {i : Nat}
    (hw : i ∉ ids clients) {q : Client → Bool} :
    (clients.filter q).find? (fun d => d.id = i) = none := by
  rw [List.find?_eq_none]
  intro d hd
  have hdc : d ∈ clients := (List.mem_filter.mp hd).1
  simp only [decide_eq_true_eq]
  intro hdn
  apply hw
  rw [← hdn]
  exact id_mem_ids hdc

/-- Looking up the key just written yields the written series. -/
theorem lookupSeries_setSeries_self (st : Store) (k : String)
    (v : List ChartDataPoint) : lookupSeries (setSeries st k v) k = v := by
  unfold setSeries
  by_cases hany : st.any (fun e => e.1 = k) = true
  · rw [if_pos hany]
    induction st with
    | nil => simp at hany
    | cons e es ih =>
      rw [List.map_cons]
      by_cases he : e.1 = k
      · unfold lookupSeries
        rw [if_pos he,
          List.find?_cons_of_pos _ (by simp)]
        rfl
      · rw [if_neg he]
        unfold lookupSeries
        rw [List.find?_cons_of_neg _ (by simpa using he)]
        have hany2 : es.any (fun e => e.1 = k) = true := by
          rcases List.any_eq_true.mp hany with ⟨x, hx, hxk⟩
          rcases List.mem_cons.mp hx with rfl | hxs
          · exact absurd (by simpa using hxk) he
          · exact List.any_eq_true.mpr ⟨x, hxs, hxk⟩
        exact ih hany2
  · rw [if_neg hany]
    unfold lookupSeries
    have h1 : (st ++ [(k, v)]).find? (fun e => e.1 = k) = some (k, v) := by
      induction st with
      | nil => simp [List.find?_cons]
      | cons e es ih =>
        have he : ¬(e.1 = k) := by
          intro h
          exact hany (List.any_eq_true.mpr ⟨e, List.mem_cons_self _ _, by simpa using h⟩)
        rw [List.cons_append, List.find?_cons_of_neg _ (by simpa using he)]
        exact ih (fun h2 => hany (by
          rcases List.any_eq_true.mp h2 with ⟨x, hx, hxk⟩
          exact List.any_eq_true.mpr ⟨x, List.mem_cons_of_mem _ hx, hxk⟩))
    rw [h1]
    rfl

/-- The branch of one quotes.forEach iteration whose key and price are
both truthy: under the invariant that every stored price is nonzero, the
emitted update's previous-price, change and change-percent fields are
exactly the spec formulas over the pre-record series, and the new point
is recorded after that read. -/
theorem processQuote_spec {maxPts : Nat} {subscribedUnion : List String}
    {now : Nat} {hist : Store} {ups : List StockPriceUpdate}
    {entry : String × StockQuote} {key : String} {p : ℚ}
    (hnz : storeNonzero hist)
    (hfind : subscribedUnion.find? (fun s => bareSymbol s = entry.1) = some key)
    (hprice : entry.2.regularMarketPrice = some p)
    (hkey : key ≠ "") (hp0 : p ≠ 0) :
    processQuote maxPts subscribedUnion now (hist, ups) entry =
      (updatePriceHistory maxPts hist key p now,
       ups ++ [{ symbol := entry.1
                 exchange := exchangeOf entry.2
                 price := p
                 previousPrice :=
                   (lookupSeries hist key).getLast?.map (fun pt => pt.price)
                 change :=
                   (lookupSeries hist key).getLast?.map (fun pt => p - pt.price)
                 changePercent :=
                   (lookupSeries hist key).getLast?.map
                     (fun pt => (p - pt.price) / pt.price * 100)
                 timestamp := now }]) := by
  unfold processQuote
  split
  · next key' p' heq1 heq2 =>
    rw [hfind] at heq1
    rw [hprice] at heq2
    injection heq1 with hk
    injection heq2 with hp
    subst hk
    subst hp
    rw [if_pos ⟨hkey, hp0⟩]
    refine Prod.ext rfl ?_
    simp only
    congr 1
    cases hlast : (lookupSeries hist key).getLast? with
    | none => simp [hlast]
    | some pt =>
      have hmem : pt ∈ lookupSeries hist key :=
        List.mem_of_mem_getLast? hlast
      have hpt : pt.price ≠ 0 := mem_lookupSeries hnz hmem
      simp [hlast, hpt]
  · next h =>
    exact (h key p hfind hprice).elim

/-- C2: over any price cycle the history store keeps every recorded price
nonzero (points are recorded only behind the truthiness guard), and under
that invariant every symbol processed with a truthy key and price emits an
update whose change is P1 - P0 and whose changePercent is
(P1 - P0) / P0 * 100 when a previous point exists — both fields absent
when none does — where P0 is the latest price read from the store before
the new point is recorded; the new point is then appended behind the cap. -/
theorem C2_delta_fields :
    (∀ (maxPts : Nat) (subscribedUnion : List String) (now : Nat)
        (quotes : List (String × StockQuote)) (hist : Store)
        (ups : List StockPriceUpdate), storeNonzero hist →
        storeNonzero
          ((quotes.foldl (processQuote maxPts subscribedUnion now)
            (hist, ups))).1)
    ∧ (∀ (maxPts : Nat) (subscribedUnion : List String) (now : Nat)
        (hist : Store) (ups : List StockPriceUpdate)
        (entry : String × StockQuote) (key : String) (p : ℚ),
        storeNonzero hist →
        subscribedUnion.find? (fun s => bareSymbol s = entry.1) = some key →
        entry.2.regularMarketPrice = some p → key ≠ "" → p ≠ 0 →
        processQuote maxPts subscribedUnion now (hist, ups) entry =
          (updatePriceHistory maxPts hist key p now,
           ups ++ [{ symbol := entry.1
                     exchange := exchangeOf entry.2
                     price := p
                     previousPrice :=
                       (lookupSeries hist key).getLast?.map (fun pt => pt.price)
                     change :=
                       (lookupSeries hist key).getLast?.map
                         (fun pt => p - pt.price)
                     changePercent :=
                       (lookupSeries hist key).getLast?.map
                         (fun pt => (p - pt.price) / pt.price * 100)
                     timestamp := now }])
        ∧ lookupSeries (updatePriceHistory maxPts hist key p now) key =
            recordPoint maxPts (lookupSeries hist key) ⟨now, p⟩) := by
  constructor
  · intro maxPts subscribedUnion now quotes hist ups h
    exact storeNonzero_cycleFold quotes (hist, ups) h
  · intro maxPts subscribedUnion now hist ups entry key p hnz hfind hprice hkey hp0
    refine ⟨processQuote_spec hnz hfind hprice hkey hp0, ?_⟩
    unfold updatePriceHistory
    exact lookupSeries_setSeries_self _ _ _

/-- C2 witness: a concrete symbol with history [5] and new price 7 gets
change = 2 and changePercent = 40, and the store stays nonzero. -/
theorem C2_delta_fields_witness :
    storeNonzero [(("TCS"), [ChartDataPoint.mk 0 5])]
    ∧ storeNonzero
        (([(("TCS"),
            { regularMarketPrice := some 7, exchange := none })]).foldl
          (processQuote 100 [("TCS")] 1)
          ([(("TCS"), [ChartDataPoint.mk 0 5])], [])).1
    ∧ processQuote 100 [("TCS")] 1 ([(("TCS"), [ChartDataPoint.mk 0 5])], [])
        (("TCS"), { regularMarketPrice := some 7, exchange := none }) =
      (updatePriceHistory 100 [(("TCS"), [ChartDataPoint.mk 0 5])] ("TCS") 7 1,
       [] ++ [{ symbol := ("TCS")
                exchange :=
                  exchangeOf { regularMarketPrice := some 7, exchange := none }
                price := 7
                previousPrice :=
                  (lookupSeries [(("TCS"), [ChartDataPoint.mk 0 5])]
                    ("TCS")).getLast?.map (fun pt => pt.price)
                change :=
                  (lookupSeries [(("TCS"), [ChartDataPoint.mk 0 5])]
                    ("TCS")).getLast?.map (fun pt => 7 - pt.price)
                changePercent :=
                  (lookupSeries [(("TCS"), [ChartDataPoint.mk 0 5])]
                    ("TCS")).getLast?.map
                      (fun pt => (7 - pt.price) / pt.price * 100)
                timestamp := 1 }]) :=
  ⟨by decide, C2_delta_fields.1 100 [("TCS")] 1 _ _ [] (by decide),
   (C2_delta_fields.2 100 [("TCS")] 1 _ [] _ ("TCS") 7 (by decide) (by decide)
      rfl (by decide) (by decide)).1⟩

/-- C3: a series built by the record operation never exceeds the cap, and
after inserting maxPts + k points (k ≥ 1) it equals exactly the last
maxPts inserted points in insertion order; the source's default cap is
100. -/
theorem C3_history_bounded_fifo (maxPts : Nat) (pts : List ChartDataPoint) :
    (pts.foldl (recordPoint maxPts) []).length ≤ maxPts
    ∧ (∀ k, 1 ≤ k → pts.length = maxPts + k →
        pts.foldl (recordPoint maxPts) [] = pts.drop k)
    ∧ maxHistoryPointsDefault = 100 := by
  have base := foldl_recordPoint maxPts pts [] (by simp)
  simp only [List.nil_append, List.length_nil, Nat.zero_add] at base
  refine ⟨?_, ?_, rfl⟩
  · rw [base, List.length_drop]
    omega
  · intro k hk hlen
    rw [base]
    congr 1
    omega

/-- C3 witness: cap 2, four inserted points, the series is the last two. -/
theorem C3_history_bounded_fifo_witness :
    1 ≤ 2
    ∧ ([⟨0, 1⟩, ⟨1, 2⟩, ⟨2, 3⟩, ⟨3, 4⟩] : List ChartDataPoint).length = 2 + 2
    ∧ ([⟨0, 1⟩, ⟨1, 2⟩, ⟨2, 3⟩, ⟨3, 4⟩] : List ChartDataPoint).foldl
        (recordPoint 2) []
      = ([⟨0, 1⟩, ⟨1, 2⟩, ⟨2, 3⟩, ⟨3, 4⟩] : List ChartDataPoint).drop 2 :=
  ⟨by decide, by decide,
   (C3_history_bounded_fifo 2 [⟨0, 1⟩, ⟨1, 2⟩, ⟨2, 3⟩, ⟨3, 4⟩]).2.1 2
     (by decide) (by decide)⟩

/-- C7 (code bug evidence): after initialize then close, the portfolio and
price timers are cancelled, every registered connection was closed, the
registry and the price history are empty — but the heartbeat probe timer
is still active, because its setInterval handle was never stored and
close never clears it. -/
theorem C7_close_keeps_heartbeat_timer (st : ServiceState) :
    (close (initService st)).1.updateInterval = none
    ∧ (close (initService st)).1.stockUpdateInterval = none
    ∧ (close (initService st)).1.clients = []
    ∧ (close (initService st)).1.priceHistory = []
    ∧ (close (initService st)).2 = ids st.clients
    ∧ (close (initService st)).1.heartbeatTimerActive = true :=
  ⟨rfl, rfl, rfl, rfl, rfl, rfl⟩

/-- C4: the heartbeat state machine — on a tick a Suspect connection is
terminated and removed from the registry while an Alive one is marked
Suspect and pinged; a probe acknowledgment marks the connection Alive
again; and a connection that receives no acknowledgment between two
consecutive ticks is absent from the registry after the second tick, so
no later fan-out attempts a message to it. -/
theorem C4_heartbeat_machine (clients : List Client) (c : Client)
    (hc : c ∈ clients) (hn : (ids clients).Nodup) :
    (c.isAlive = false →
      c.id ∈ (heartbeatTick clients).2.1
      ∧ c.id ∉ ids (heartbeatTick clients).1)
    ∧ (c.isAlive = true →
      {c with isAlive := false} ∈ (heartbeatTick clients).1
      ∧ c.id ∈ (heartbeatTick clients).2.2)
    ∧ {c with isAlive := true} ∈ handlePong clients c.id
    ∧ (∀ evs : List HBEvent,
        (∀ e ∈ evs, e ≠ HBEvent.tick ∧ e ≠ HBEvent.pong c.id) →
        c.id ∉ ids (hbRun clients (HBEvent.tick :: (evs ++ [HBEvent.tick])))
        ∧ ∀ (msgOf : Client → Option OutMsg) (p : Nat × OutMsg),
            p ∈ (fanOut
              (hbRun clients (HBEvent.tick :: (evs ++ [HBEvent.tick])))
              msgOf).1 →
            p.1 ≠ c.id) := by
  refine ⟨?_, ?_, ?_, ?_⟩
  · intro hdead
    constructor
    · unfold heartbeatTick
      exact List.mem_map_of_mem _
        (List.mem_filter.mpr ⟨hc, by simp [hdead]⟩)
    · apply heartbeatTick_not_mem
      intro d hd hdi
      have : d = c := eq_of_mem_id_eq hn hc hd hdi
      rw [this, hdead]
  · intro halive
    constructor
    · unfold heartbeatTick
      exact List.mem_map_of_mem _
        (List.mem_filter.mpr ⟨hc, by simp [halive]⟩)
    · unfold heartbeatTick
      exact List.mem_map_of_mem _
        (List.mem_filter.mpr ⟨hc, by simp [halive]⟩)
  · unfold handlePong
    have : ({c with isAlive := true} : Client)
        = (fun d => if d.id = c.id then {d with isAlive := true} else d) c := by
      simp
    rw [this]
    exact List.mem_map_of_mem _ hc
  · intro evs hevs
    have hsplit : hbRun clients (HBEvent.tick :: (evs ++ [HBEvent.tick]))
        = (heartbeatTick (hbRun ((heartbeatTick clients).1) evs)).1 := by
      simp [hbRun, hbStep, List.foldl_append]
    have hgone : c.id ∉ ids (hbRun clients (HBEvent.tick :: (evs ++ [HBEvent.tick]))) := by
      rw [hsplit]
      apply heartbeatTick_not_mem
      apply hbRun_preserve_suspect evs ((heartbeatTick clients).1) hevs
      intro d hd _
      exact heartbeatTick_mem_isAlive_false hd
    refine ⟨hgone, ?_⟩
    intro msgOf p hp hpc
    apply hgone
    rw [← hpc]
    exact fanOut_sends_mem _ _ _ hp

/-- A concrete connection fixture for the heartbeat witness. -/
def exHBClient : Client :=
  { id := 1, isAlive := true, wsOpen := true, wsSendOk := true,
    subscribedStocks := [], subscribedToPortfolio := true }

/-- C4 witness at a one-connection registry. -/
theorem C4_heartbeat_machine_witness :
    exHBClient ∈ [exHBClient] ∧ (ids [exHBClient]).Nodup
    ∧ ((exHBClient.isAlive = false →
        exHBClient.id ∈ (heartbeatTick [exHBClient]).2.1
        ∧ exHBClient.id ∉ ids (heartbeatTick [exHBClient]).1)
      ∧ (exHBClient.isAlive = true →
        {exHBClient with isAlive := false} ∈ (heartbeatTick [exHBClient]).1
        ∧ exHBClient.id ∈ (heartbeatTick [exHBClient]).2.2)
      ∧ {exHBClient with isAlive := true} ∈ handlePong [exHBClient] exHBClient.id
      ∧ (∀ evs : List HBEvent,
          (∀ e ∈ evs, e ≠ HBEvent.tick ∧ e ≠ HBEvent.pong exHBClient.id) →
          exHBClient.id ∉
            ids (hbRun [exHBClient] (HBEvent.tick :: (evs ++ [HBEvent.tick])))
          ∧ ∀ (msgOf : Client → Option OutMsg) (p : Nat × OutMsg),
              p ∈ (fanOut
                (hbRun [exHBClient] (HBEvent.tick :: (evs ++ [HBEvent.tick])))
                msgOf).1 →
              p.1 ≠ exHBClient.id)) :=
  ⟨by decide, by decide,
   C4_heartbeat_machine [exHBClient] exHBClient (by decide) (by decide)⟩

/-- A connection subscribed under an exchange-qualified key only. -/
def exClientC1 : Client :=
  { id := 1, isAlive := true, wsOpen := true, wsSendOk := true,
    subscribedStocks := [("TCS:NSE")], subscribedToPortfolio := true }

/-- Service state holding only that connection, fresh history. -/
def exStateC1 : ServiceState :=
  { clients := [exClientC1], priceHistory := [], maxHistoryPoints := 100,
    updateInterval := none, stockUpdateInterval := none,
    heartbeatTimerActive := false }

/-- The quote batch answering that subscription (keyed, like the Quote
Source's map, by the bare symbol). -/
def exQuotesC1 : List (String × StockQuote) :=
  [(("TCS"), { regularMarketPrice := some 10, exchange := some ("NSE") })]

/-- C1 counterexample: the cycle builds exactly one update — produced from
the connection's own subscription key "TCS:NSE", whose bare symbol is the
update's symbol "TCS" — yet the fan-out delivers nothing, because the
filter tests membership of the bare update symbol in the subscription set
and "TCS" is not the stored key "TCS:NSE". The claim's single-update case
fails for exchange-qualified keys. -/
theorem C1_exchange_key_counterexample :
    exClientC1.subscribedStocks = [("TCS:NSE")]
    ∧ bareSymbol ("TCS:NSE") = ("TCS")
    ∧ (cycleUpdates exStateC1 exQuotesC1 0).2.map (fun u => u.symbol)
        = [("TCS")]
    ∧ (broadcastStockPriceUpdates exStateC1 exQuotesC1 0).2 = [] := by
  refine ⟨rfl, by decide, by decide, by decide⟩

/-- C1 (amended): in a price cycle fan-out, an open, send-healthy
connection receives the single-update shape when exactly one of the
cycle's updates has its (bare) symbol field in the connection's
subscribed-symbol set, the batched shape when two or more do, and nothing
when none does or its set is empty — matching is by literal membership of
the update's bare symbol, so an exchange-qualified subscription key never
matches. -/
theorem C1_fanout_shape (st : ServiceState)
    (quotes : List (String × StockQuote)) (now : Nat) (c : Client)
    (hc : c ∈ st.clients) (hn : (ids st.clients).Nodup)
    (ho : c.wsOpen = true) (hs : c.wsSendOk = true) :
    deliveredTo (broadcastStockPriceUpdates st quotes now).2 c.id =
      (if c.subscribedStocks.isEmpty then []
       else
         match (cycleUpdates st quotes now).2.filter
             (fun u => c.subscribedStocks.contains u.symbol) with
         | [] => []
         | [u] => [OutMsg.stockPriceSingle u now]
         | us => [OutMsg.stockPriceBatch us now]) := by
  simp only [broadcastStockPriceUpdates]
  by_cases hu : (computeSubscribedUnion st.clients).isEmpty
  · rw [if_pos hu]
    have hempty : c.subscribedStocks = [] := by
      cases hstocks : c.subscribedStocks with
      | nil => rfl
      | cons s ss =>
        exfalso
        have hmem : s ∈ computeSubscribedUnion st.clients :=
          mem_computeSubscribedUnion.mpr
            ⟨c, hc, by rw [hstocks]; exact List.mem_cons_self _ _⟩
        rw [List.isEmpty_iff] at hu
        rw [hu] at hmem
        cases hmem
    rw [hempty]
    simp [deliveredTo]
  · rw [if_neg hu]
    by_cases hb : (cycleUpdates st quotes now).2.isEmpty
    · rw [if_pos hb]
      rw [List.isEmpty_iff] at hb
      rw [hb]
      simp only [List.filter_nil, deliveredTo_nil]
      split
      · rfl
      · rfl
    · rw [if_neg hb]
      simp only
      rw [deliveredTo_fanOut, filter_id_eq_single hn hc, filterMap_single,
        if_pos ⟨ho, hs⟩]
      unfold clientStockMsg
      by_cases he : c.subscribedStocks.isEmpty
      · rw [if_pos he, if_pos he]
        rfl
      · rw [if_neg he, if_neg he]
        cases hflt : (cycleUpdates st quotes now).2.filter
            (fun u => c.subscribedStocks.contains u.symbol) with
        | nil => rfl
        | cons u us => cases us <;> rfl

/-- A connection subscribed under the bare key, for the C1 witness. -/
def exClientC1b : Client :=
  { id := 1, isAlive := true, wsOpen := true, wsSendOk := true,
    subscribedStocks := [("TCS")], subscribedToPortfolio := true }

/-- Service state holding only that connection. -/
def exStateC1b : ServiceState :=
  { clients := [exClientC1b], priceHistory := [], maxHistoryPoints := 100,
    updateInterval := none, stockUpdateInterval := none,
    heartbeatTimerActive := false }

/-- C1 witness: at a concrete one-connection state with a bare
subscription key, the fan-out shape rule instantiates and the connection
in fact receives the single-update shape. -/
theorem C1_fanout_shape_witness :
    exClientC1b ∈ exStateC1b.clients ∧ (ids exStateC1b.clients).Nodup
    ∧ exClientC1b.wsOpen = true ∧ exClientC1b.wsSendOk = true
    ∧ deliveredTo
        (broadcastStockPriceUpdates exStateC1b exQuotesC1 0).2
        exClientC1b.id =
      (if exClientC1b.subscribedStocks.isEmpty then []
       else
         match (cycleUpdates exStateC1b exQuotesC1 0).2.filter
             (fun u => exClientC1b.subscribedStocks.contains u.symbol) with
         | [] => []
         | [u] => [OutMsg.stockPriceSingle u 0]
         | us => [OutMsg.stockPriceBatch us 0]) :=
  ⟨by decide, by decide, rfl, rfl,
   C1_fanout_shape exStateC1b exQuotesC1 0 exClientC1b (by decide) (by decide)
     rfl rfl⟩

/-- C5: when some connection is portfolio-subscribed and the Portfolio
Builder fails, every registered open, send-healthy connection — whatever
its portfolio flag or symbol subscriptions — receives exactly one error
message and no portfolio_update is sent that cycle; when no connection is
portfolio-subscribed the cycle returns immediately without calling the
builder and without sending anything. -/
theorem C5_portfolio_error_policy (clients : List Client) (e : String)
    (now : Nat) (builder : Except String PortfolioData)
    (hn : (ids clients).Nodup)
    (hok : ∀ c ∈ clients, c.wsOpen = true ∧ c.wsSendOk = true) :
    ((∃ c ∈ clients, c.subscribedToPortfolio = true) →
      (∀ c ∈ clients,
        deliveredTo
          (broadcastPortfolioUpdate clients (Except.error e) now).2.1 c.id
          = [OutMsg.errorMsg e now])
      ∧ (∀ p ∈ (broadcastPortfolioUpdate clients (Except.error e) now).2.1,
          isPortfolioUpdateMsg p.2 = false))
    ∧ ((∀ c ∈ clients, c.subscribedToPortfolio = false) →
        broadcastPortfolioUpdate clients builder now = (clients, [], false)) := by
  constructor
  · rintro ⟨c0, hc0, hflag⟩
    have hne : ¬(clients.filter (fun c => c.subscribedToPortfolio)).isEmpty = true := by
      rw [List.isEmpty_iff]
      intro hnil
      have : c0 ∈ clients.filter (fun c => c.subscribedToPortfolio) :=
        List.mem_filter.mpr ⟨hc0, by simp [hflag]⟩
      rw [hnil] at this
      cases this
    constructor
    · intro c hc
      simp only [broadcastPortfolioUpdate]
      rw [if_neg hne]
      simp only
      rw [deliveredTo_fanOut, filter_id_eq_single hn hc, filterMap_single,
        if_pos (hok c hc)]
      rfl
    · intro p hp
      simp only [broadcastPortfolioUpdate] at hp
      rw [if_neg hne] at hp
      simp only at hp
      rcases fanOut_sends_shape _ _ _ hp with ⟨d, _, _, hmsg⟩
      have : p.2 = OutMsg.errorMsg e now := by
        injection hmsg with h2
        exact h2.symm
      rw [this]
      rfl
  · intro hall
    have hnil : clients.filter (fun c => c.subscribedToPortfolio) = [] := by
      rw [List.filter_eq_nil_iff]
      intro c hc
      simp [hall c hc]
    simp only [broadcastPortfolioUpdate]
    rw [if_pos (by rw [hnil]; rfl)]

/-- Portfolio-subscribed connection for the C5 witness. -/
def exC5Sub : Client :=
  { id := 1, isAlive := true, wsOpen := true, wsSendOk := true,
    subscribedStocks := [], subscribedToPortfolio := true }

/-- Portfolio-unsubscribed connection for the C5 witness. -/
def exC5Unsub : Client :=
  { id := 2, isAlive := true, wsOpen := true, wsSendOk := true,
    subscribedStocks := [("TCS")], subscribedToPortfolio := false }

/-- C5 witness at a two-connection registry: on builder failure both
connections (the unsubscribed one included) get exactly one error. -/
theorem C5_portfolio_error_policy_witness :
    (ids [exC5Sub, exC5Unsub]).Nodup
    ∧ (∀ c ∈ [exC5Sub, exC5Unsub], c.wsOpen = true ∧ c.wsSendOk = true)
    ∧ (((∃ c ∈ [exC5Sub, exC5Unsub], c.subscribedToPortfolio = true) →
        (∀ c ∈ [exC5Sub, exC5Unsub],
          deliveredTo
            (broadcastPortfolioUpdate [exC5Sub, exC5Unsub]
              (Except.error ("fetch failed")) 0).2.1 c.id
            = [OutMsg.errorMsg ("fetch failed") 0])
        ∧ (∀ p ∈ (broadcastPortfolioUpdate [exC5Sub, exC5Unsub]
              (Except.error ("fetch failed")) 0).2.1,
            isPortfolioUpdateMsg p.2 = false))
      ∧ ((∀ c ∈ [exC5Sub, exC5Unsub], c.subscribedToPortfolio = false) →
          broadcastPortfolioUpdate [exC5Sub, exC5Unsub] (Except.ok 0) 0
            = ([exC5Sub, exC5Unsub], [], false))) :=
  ⟨by decide, by decide,
   C5_portfolio_error_policy [exC5Sub, exC5Unsub] ("fetch failed") 0
     (Except.ok 0) (by decide) (by decide)⟩

/-- Registered connection whose transport is already closed. -/
def exC6Closed : Client :=
  { id := 1, isAlive := true, wsOpen := false, wsSendOk := true,
    subscribedStocks := [], subscribedToPortfolio := true }

/-- Healthy open connection alongside it. -/
def exC6Open : Client :=
  { id := 2, isAlive := true, wsOpen := true, wsSendOk := true,
    subscribedStocks := [], subscribedToPortfolio := true }

/-- C6 counterexample: in a broadcast over a registry holding an
already-closed connection and an open one, the closed connection gets no
delivery (its delivery fails) yet it is NOT removed from the registry —
the source only deletes a connection when send() throws, and skips
non-open transports silently — while the open connection is delivered to. -/
theorem C6_closed_not_removed_counterexample :
    deliveredTo (broadcast [exC6Closed, exC6Open]
        (OutMsg.errorMsg ("boom") 0)).2 1 = []
    ∧ 1 ∈ ids (broadcast [exC6Closed, exC6Open]
        (OutMsg.errorMsg ("boom") 0)).1
    ∧ deliveredTo (broadcast [exC6Closed, exC6Open]
        (OutMsg.errorMsg ("boom") 0)).2 2
      = [OutMsg.errorMsg ("boom") 0] := by
  refine ⟨by decide, by decide, by decide⟩

/-- C6 (amended): in any broadcast fan-out, an open connection with a
healthy transport is delivered the message no matter what happens to the
other connections; a connection whose transport is not open is skipped
silently and stays registered; a connection whose send throws gets no
delivery and is removed from the registry. -/
theorem C6_send_isolation (clients : List Client) (m : OutMsg) (c : Client)
    (hn : (ids clients).Nodup) (hc : c ∈ clients) :
    (c.wsOpen = true → c.wsSendOk = true →
      deliveredTo (broadcast clients m).2 c.id = [m])
    ∧ (c.wsOpen = false →
      deliveredTo (broadcast clients m).2 c.id = []
      ∧ c.id ∈ ids (broadcast clients m).1)
    ∧ (c.wsOpen = true → c.wsSendOk = false →
      deliveredTo (broadcast clients m).2 c.id = []
      ∧ c.id ∉ ids (broadcast clients m).1) := by
  refine ⟨?_, ?_, ?_⟩
  · intro ho hs
    simp only [broadcast]
    rw [deliveredTo_fanOut, filter_id_eq_single hn hc, filterMap_single,
      if_pos ⟨ho, hs⟩]
    rfl
  · intro ho
    constructor
    · simp only [broadcast]
      rw [deliveredTo_fanOut, filter_id_eq_single hn hc, filterMap_single,
        if_neg (by rw [ho]; simp)]
      rfl
    · simp only [broadcast]
      have hnr : c.id ∉ (fanOut clients (fun _ => some m)).2 := by
        intro hin
        rcases (mem_fanOut_removed _ _ _).mp hin with ⟨d, hd, _, hdo, _, hdi⟩
        have : d = c := eq_of_mem_id_eq hn hc hd hdi
        rw [this, ho] at hdo
        cases hdo
      exact id_mem_ids (List.mem_filter.mpr ⟨hc, by simpa using hnr⟩)
  · intro ho hs
    constructor
    · simp only [broadcast]
      rw [deliveredTo_fanOut, filter_id_eq_single hn hc, filterMap_single,
        if_neg (by rw [hs]; simp)]
      rfl
    · simp only [broadcast]
      intro hin
      unfold ids at hin
      rcases List.mem_map.mp hin with ⟨d, hd, hdi⟩
      have hd2 := List.mem_filter.mp hd
      have hrem : c.id ∈ (fanOut clients (fun _ => some m)).2 :=
        (mem_fanOut_removed _ _ _).mpr ⟨c, hc, rfl, ho, hs, rfl⟩
      have : d.id ∉ (fanOut clients (fun _ => some m)).2 := by
        simpa using hd2.2
      rw [hdi] at this
      exact this hrem

/-- Connection whose send throws, for the C6 witness. -/
def exC6Broken : Client :=
  { id := 3, isAlive := true, wsOpen := true, wsSendOk := false,
    subscribedStocks := [], subscribedToPortfolio := true }

/-- C6 witness: with a closed, an open and a throwing connection in one
registry, the open one is delivered to, the closed one stays, and the
throwing one is removed. -/
theorem C6_send_isolation_witness :
    (ids [exC6Closed, exC6Open, exC6Broken]).Nodup
    ∧ exC6Open ∈ [exC6Closed, exC6Open, exC6Broken]
    ∧ ((exC6Open.wsOpen = true → exC6Open.wsSendOk = true →
        deliveredTo (broadcast [exC6Closed, exC6Open, exC6Broken]
          (OutMsg.errorMsg ("boom") 0)).2 exC6Open.id
          = [OutMsg.errorMsg ("boom") 0])
      ∧ (exC6Open.wsOpen = false →
        deliveredTo (broadcast [exC6Closed, exC6Open, exC6Broken]
          (OutMsg.errorMsg ("boom") 0)).2 exC6Open.id = []
        ∧ exC6Open.id ∈ ids (broadcast [exC6Closed, exC6Open, exC6Broken]
            (OutMsg.errorMsg ("boom") 0)).1)
      ∧ (exC6Open.wsOpen = true → exC6Open.wsSendOk = false →
        deliveredTo (broadcast [exC6Closed, exC6Open, exC6Broken]
          (OutMsg.errorMsg ("boom") 0)).2 exC6Open.id = []
        ∧ exC6Open.id ∉ ids (broadcast [exC6Closed, exC6Open, exC6Broken]
            (OutMsg.errorMsg ("boom") 0)).1)) :=
  ⟨by decide, by decide,
   C6_send_isolation [exC6Closed, exC6Open, exC6Broken]
     (OutMsg.errorMsg ("boom") 0) exC6Open (by decide) (by decide)⟩

/-- find? for a fresh id over a registry that ends with the fresh entry
locates exactly that entry. -/
theorem find?_id_append {clients : List Client} {n : Client} {i : Nat}
    (hi : n.id = i) (hw : i ∉ ids clients) :
    (clients ++ [n]).find? (fun d => d.id = i) = some n := by
  induction clients with
  | nil =>
    rw [List.nil_append]
    exact List.find?_cons_of_pos _ (by simp [hi])
  | cons x xs ih =>
    have hx : ¬(x.id = i) := by
      intro h
      apply hw
      rw [ids_cons, ← h]
      exact List.mem_cons_self _ _
    have hw2 : i ∉ ids xs := by
      intro h
      exact hw (by rw [ids_cons]; exact List.mem_cons_of_mem _ h)
    rw [List.cons_append, List.find?_cons_of_neg _ (by simpa using hx)]
    exact ih hw2

/-- find? for a fresh id over a filtered registry that ends with the fresh
entry locates exactly that entry. -/
theorem find?_id_filter_append {clients : List Client} {n : Client} {i : Nat}
    (hi : n.id = i) (hw : i ∉ ids clients) {q : Client → Bool}
    (hq : q n = true) :
    ((clients ++ [n]).filter q).find? (fun d => d.id = i) = some n := by
  induction clients with
  | nil =>
    simp only [List.nil_append, List.filter_cons, hq, if_pos]
    exact List.find?_cons_of_pos _ (by simp [hi])
  | cons x xs ih =>
    have hx : ¬(x.id = i) := by
      intro h
      apply hw
      rw [ids_cons, ← h]
      exact List.mem_cons_self _ _
    have hw2 : i ∉ ids xs := by
      intro h
      exact hw (by rw [ids_cons]; exact List.mem_cons_of_mem _ h)
    rw [List.cons_append, List.filter_cons]
    split
    · rw [List.find?_cons_of_neg _ (by simpa using hx)]
      exact ih hw2
    · exact ih hw2

/-- A fresh send-healthy entry's id is never in a fan-out's removal set
drawn from the old registry plus that entry. -/
theorem newClient_not_removed {clients : List Client} {n : Client}
    (hw : n.id ∉ ids clients) (hns : n.wsSendOk = true)
    {targets : List Client} (hsub : ∀ d ∈ targets, d ∈ clients ++ [n])
    (msgOf : Client → Option OutMsg) :
    n.id ∉ (fanOut targets msgOf).2 := by
  intro hin
  rcases (mem_fanOut_removed _ _ _).mp hin with ⟨d, hd, _, _, hdsend, hdi⟩
  rcases List.mem_append.mp (hsub d hd) with h1 | h2
  · apply hw
    rw [← hdi]
    exact id_mem_ids h1
  · have hdn : d = n := by simpa using h2
    rw [hdn, hns] at hdsend
    cases hdsend

/-- After a portfolio cycle over a registry ending in a fresh send-healthy
entry, that entry is still findable by its id. -/
theorem bpu_find?_fresh {clients : List Client} {n : Client} {i : Nat}
    (hi : n.id = i) (hw : i ∉ ids clients) (hns : n.wsSendOk = true)
    (builder : Except String PortfolioData) (now : Nat) :
    (broadcastPortfolioUpdate (clients ++ [n]) builder now).1.find?
      (fun d => d.id = i) = some n := by
  have hwn : n.id ∉ ids clients := by rw [hi]; exact hw
  simp only [broadcastPortfolioUpdate]
  split
  · exact find?_id_append hi hw
  · cases builder with
    | ok pd =>
      dsimp only
      apply find?_id_filter_append hi hw
      simp only [decide_eq_true_eq]
      apply newClient_not_removed hwn hns
      intro d hd
      exact (List.mem_filter.mp hd).1
    | error e =>
      dsimp only
      apply find?_id_filter_append hi hw
      simp only [decide_eq_true_eq]
      apply newClient_not_removed hwn hns
      intro d hd
      exact hd

/-- C8: registering a connection (with an open, healthy transport and a
fresh id) creates a record that is findable afterwards with liveness
true, an empty symbol set and the portfolio flag set, and the first
message delivered to the new connection is the connected message — sent
before the registration-triggered portfolio broadcast. -/
theorem C8_registration (clients : List Client) (w : WsInfo)
    (builder : Except String PortfolioData) (now : Nat)
    (ho : w.wsOpen = true) (hs : w.wsSendOk = true)
    (hw : w.id ∉ ids clients) :
    (deliveredTo (handleConnection clients w builder now).2 w.id).head?
        = some (OutMsg.connected now)
    ∧ (handleConnection clients w builder now).1.find?
        (fun c => c.id = w.id)
      = some { id := w.id, isAlive := true, wsOpen := w.wsOpen,
               wsSendOk := w.wsSendOk, subscribedStocks := [],
               subscribedToPortfolio := true } := by
  have hout : sendOutcome
      { id := w.id, isAlive := true, wsOpen := w.wsOpen,
        wsSendOk := w.wsSendOk, subscribedStocks := [],
        subscribedToPortfolio := true }
      (OutMsg.connected now) = (some (w.id, OutMsg.connected now), none) := by
    simp [sendOutcome, ho, hs]
  constructor
  · simp only [handleConnection, hout]
    rw [Option.toList_some, List.cons_append, deliveredTo_cons, if_pos rfl]
    rfl
  · simp only [handleConnection, hout]
    refine bpu_find?_fresh ?_ hw ?_ builder now
    · rfl
    · exact hs

/-- Fresh transport handle for the C8 witness. -/
def exW8 : WsInfo := { id := 5, wsOpen := true, wsSendOk := true }

/-- C8 witness at a registry with one existing connection. -/
theorem C8_registration_witness :
    exW8.wsOpen = true ∧ exW8.wsSendOk = true ∧ exW8.id ∉ ids [exC6Open]
    ∧ ((deliveredTo (handleConnection [exC6Open] exW8 (Except.ok 0) 7).2
          exW8.id).head? = some (OutMsg.connected 7)
      ∧ (handleConnection [exC6Open] exW8 (Except.ok 0) 7).1.find?
          (fun c => c.id = exW8.id)
        = some { id := exW8.id, isAlive := true, wsOpen := exW8.wsOpen,
                 wsSendOk := exW8.wsSendOk, subscribedStocks := [],
                 subscribedToPortfolio := true }) :=
  ⟨rfl, rfl, by decide,
   C8_registration [exC6Open] exW8 (Except.ok 0) 7 rfl rfl (by decide)⟩

/-- A portfolio-subscribed, open, send-healthy registry member is sent the
snapshot by a successful portfolio cycle. -/
theorem bpu_ok_mem {clients2 : List Client} {d : Client}
    {pd : PortfolioData} {now : Nat}
    (hd : d ∈ clients2) (hdflag : d.subscribedToPortfolio = true)
    (hdo : d.wsOpen = true) (hds : d.wsSendOk = true) :
    (d.id, OutMsg.portfolioUpdate pd now)
      ∈ (broadcastPortfolioUpdate clients2 (Except.ok pd) now).2.1 := by
  have hne : ¬(clients2.filter (fun c => c.subscribedToPortfolio)).isEmpty
      = true := by
    rw [List.isEmpty_iff]
    intro hnil
    have hin : d ∈ clients2.filter (fun c => c.subscribedToPortfolio) :=
      List.mem_filter.mpr ⟨hd, by simp [hdflag]⟩
    rw [hnil] at hin
    cases hin
  simp only [broadcastPortfolioUpdate]
  rw [if_neg hne]
  dsimp only
  apply List.mem_filterMap.mpr
  refine ⟨d, List.mem_filter.mpr ⟨hd, by simp [hdflag]⟩, ?_⟩
  simp [sendOutcome, hdo, hds]

/-- C10 (implicit behavior): a successful registration immediately runs a
portfolio cycle, so — when the builder succeeds and transports are
healthy — every portfolio-subscribed connection, the pre-existing ones
included, is sent a portfolio_update as a side effect of the new client
connecting, and so is the new client itself. -/
theorem C10_connect_triggers_portfolio (clients : List Client) (w : WsInfo)
    (pd : PortfolioData) (now : Nat) (c : Client)
    (hall : ∀ d ∈ clients, d.wsOpen = true ∧ d.wsSendOk = true)
    (ho : w.wsOpen = true) (hs : w.wsSendOk = true)
    (hc : c ∈ clients) (hflag : c.subscribedToPortfolio = true) :
    (c.id, OutMsg.portfolioUpdate pd now)
      ∈ (handleConnection clients w (Except.ok pd) now).2
    ∧ (w.id, OutMsg.portfolioUpdate pd now)
      ∈ (handleConnection clients w (Except.ok pd) now).2 := by
  have hout : sendOutcome
      { id := w.id, isAlive := true, wsOpen := w.wsOpen,
        wsSendOk := w.wsSendOk, subscribedStocks := [],
        subscribedToPortfolio := true }
      (OutMsg.connected now) = (some (w.id, OutMsg.connected now), none) := by
    simp [sendOutcome, ho, hs]
  constructor
  · simp only [handleConnection, hout]
    apply List.mem_append.mpr
    right
    exact bpu_ok_mem (List.mem_append.mpr (Or.inl hc)) hflag
      (hall c hc).1 (hall c hc).2
  · simp only [handleConnection, hout]
    apply List.mem_append.mpr
    right
    exact bpu_ok_mem (List.mem_append.mpr (Or.inr (List.mem_singleton.mpr rfl)))
      rfl ho hs

/-- C10 witness: with one pre-existing subscriber, connecting a new client
delivers the snapshot both to the old subscriber and to the new client. -/
theorem C10_connect_triggers_portfolio_witness :
    (∀ d ∈ [exC5Sub], d.wsOpen = true ∧ d.wsSendOk = true)
    ∧ exW8.wsOpen = true ∧ exW8.wsSendOk = true
    ∧ exC5Sub ∈ [exC5Sub] ∧ exC5Sub.subscribedToPortfolio = true
    ∧ ((exC5Sub.id, OutMsg.portfolioUpdate 3 9)
        ∈ (handleConnection [exC5Sub] exW8 (Except.ok 3) 9).2
      ∧ (exW8.id, OutMsg.portfolioUpdate 3 9)
        ∈ (handleConnection [exC5Sub] exW8 (Except.ok 3) 9).2) :=
  ⟨by decide, rfl, rfl, by decide, rfl,
   C10_connect_triggers_portfolio [exC5Sub] exW8 3 9 exC5Sub (by decide)
     rfl rfl (by decide) rfl⟩

/-- The state and reply produced by a subscribe_stocks message on a found
connection with a healthy open transport: the connection's symbol list is
extended by Set.add over the requested symbols and a subscribed
confirmation is sent back. -/
theorem handleClientMessage_subscribe_state (syms : List String) (now : Nat)
    {clients : List Client} {i : Nat} {c : Client}
    (hfind : clients.find? (fun d => d.id = i) = some c)
    (hci : c.id = i) (ho : c.wsOpen = true) (hs : c.wsSendOk = true) :
    handleClientMessage clients i (InMsg.subscribeStocks (some syms)) now
      = (clients.map (fun d => if d.id = i then
          {c with subscribedStocks := syms.foldl addSym c.subscribedStocks}
          else d),
         [(i, OutMsg.subscribed (joinComma syms) now)]) := by
  simp only [handleClientMessage, hfind, sendOutcome, ho, hs, hci]
  simp [hci]

/-- The state produced by an unsubscribe_stocks message on a found
connection: the symbols are Set.deleted, silently. -/
theorem handleClientMessage_unsubscribe_state (syms : List String) (now : Nat)
    {clients : List Client} {i : Nat} {c : Client}
    (hfind : clients.find? (fun d => d.id = i) = some c) :
    handleClientMessage clients i (InMsg.unsubscribeStocks (some syms)) now
      = (clients.map (fun d => if d.id = i then
          {c with subscribedStocks := syms.foldl delSym c.subscribedStocks}
          else d),
         []) := by
  simp only [handleClientMessage, hfind]

/-- The interest set resulting from a subscribe_stocks on the found
connection. -/
theorem interestSet_subscribe {clients : List Client} {i : Nat} {c : Client}
    (syms : List String) (now : Nat)
    (hfind : clients.find? (fun d => d.id = i) = some c)
    (hci : c.id = i) (ho : c.wsOpen = true) (hs : c.wsSendOk = true) :
    interestSet (handleClientMessage clients i
        (InMsg.subscribeStocks (some syms)) now).1 i
      = some (syms.foldl addSym c.subscribedStocks) := by
  rw [handleClientMessage_subscribe_state syms now hfind hci ho hs]
  unfold interestSet
  dsimp only
  rw [find?_map_update ({c with subscribedStocks := syms.foldl addSym c.subscribedStocks}) hfind hci]
  rfl

/-- The interest set resulting from an unsubscribe_stocks on the found
connection. -/
theorem interestSet_unsubscribe {clients : List Client} {i : Nat} {c : Client}
    (syms : List String) (now : Nat)
    (hfind : clients.find? (fun d => d.id = i) = some c)
    (hci : c.id = i) :
    interestSet (handleClientMessage clients i
        (InMsg.unsubscribeStocks (some syms)) now).1 i
      = some (syms.foldl delSym c.subscribedStocks) := by
  rw [handleClientMessage_unsubscribe_state syms now hfind]
  unfold interestSet
  dsimp only
  rw [find?_map_update ({c with subscribedStocks := syms.foldl delSym c.subscribedStocks}) hfind hci]
  rfl

/-- C9: for a registered connection with a healthy open transport,
subscribe_stocks(S) makes the interest set the union of the prior set and
S, unsubscribe_stocks(S) makes it the prior set minus S, repeating either
message leaves the set unchanged, and a subscribe or unsubscribe whose
symbols field is not a list leaves the whole registry untouched. -/
theorem C9_subscription_algebra (clients : List Client) (c : Client)
    (now : Nat) (syms : List String)
    (hc : c ∈ clients) (hn : (ids clients).Nodup)
    (ho : c.wsOpen = true) (hs : c.wsSendOk = true) :
    (∃ l, interestSet (handleClientMessage clients c.id
        (InMsg.subscribeStocks (some syms)) now).1 c.id = some l
      ∧ ∀ x, x ∈ l ↔ x ∈ c.subscribedStocks ∨ x ∈ syms)
    ∧ (∃ l, interestSet (handleClientMessage clients c.id
        (InMsg.unsubscribeStocks (some syms)) now).1 c.id = some l
      ∧ ∀ x, x ∈ l ↔ x ∈ c.subscribedStocks ∧ x ∉ syms)
    ∧ interestSet (handleClientMessage
        (handleClientMessage clients c.id
          (InMsg.subscribeStocks (some syms)) now).1
        c.id (InMsg.subscribeStocks (some syms)) now).1 c.id
      = interestSet (handleClientMessage clients c.id
          (InMsg.subscribeStocks (some syms)) now).1 c.id
    ∧ interestSet (handleClientMessage
        (handleClientMessage clients c.id
          (InMsg.unsubscribeStocks (some syms)) now).1
        c.id (InMsg.unsubscribeStocks (some syms)) now).1 c.id
      = interestSet (handleClientMessage clients c.id
          (InMsg.unsubscribeStocks (some syms)) now).1 c.id
    ∧ handleClientMessage clients c.id (InMsg.subscribeStocks none) now
        = (clients, [])
    ∧ handleClientMessage clients c.id (InMsg.unsubscribeStocks none) now
        = (clients, []) := by
  have hfind : clients.find? (fun d => d.id = c.id) = some c :=
    find?_id_eq hn hc
  have hsub1 := handleClientMessage_subscribe_state syms now hfind rfl ho hs
  have huns1 := handleClientMessage_unsubscribe_state syms now hfind
  refine ⟨?_, ?_, ?_, ?_, ?_, ?_⟩
  · refine ⟨syms.foldl addSym c.subscribedStocks, ?_,
      fun x => mem_foldl_addSym⟩
    exact interestSet_subscribe syms now hfind rfl ho hs
  · refine ⟨syms.foldl delSym c.subscribedStocks, ?_,
      fun x => mem_foldl_delSym⟩
    exact interestSet_unsubscribe syms now hfind rfl
  · have hf1 := find?_map_update ({c with subscribedStocks := syms.foldl addSym c.subscribedStocks}) hfind rfl
    rw [hsub1]
    dsimp only
    rw [interestSet_subscribe syms now hf1 rfl ho hs]
    unfold interestSet
    rw [hf1]
    simp only [Option.map_some']
    congr 1
    show syms.foldl addSym (syms.foldl addSym c.subscribedStocks)
        = syms.foldl addSym c.subscribedStocks
    exact foldl_addSym_sat (fun s hsmem => mem_foldl_addSym.mpr (Or.inr hsmem))
  · have hf1 := find?_map_update ({c with subscribedStocks := syms.foldl delSym c.subscribedStocks}) hfind rfl
    rw [huns1]
    dsimp only
    rw [interestSet_unsubscribe syms now hf1 rfl]
    unfold interestSet
    rw [hf1]
    simp only [Option.map_some']
    congr 1
    show syms.foldl delSym (syms.foldl delSym c.subscribedStocks)
        = syms.foldl delSym c.subscribedStocks
    exact foldl_delSym_sat
      (fun s hsmem hmem => (mem_foldl_delSym.mp hmem).2 hsmem)
  · simp only [handleClientMessage, hfind]
  · simp only [handleClientMessage, hfind]

/-- Connection fixture with an existing interest set for the C9 witness. -/
def exC9 : Client :=
  { id := 4, isAlive := true, wsOpen := true, wsSendOk := true,
    subscribedStocks := [("TCS"), ("INFY")], subscribedToPortfolio := true }

/-- C9 witness at a connection already holding two symbols, with a
request overlapping one of them. -/
theorem C9_subscription_algebra_witness :
    exC9 ∈ [exC9] ∧ (ids [exC9]).Nodup
    ∧ exC9.wsOpen = true ∧ exC9.wsSendOk = true
    ∧ ((∃ l, interestSet (handleClientMessage [exC9] exC9.id
          (InMsg.subscribeStocks (some [("INFY"), ("WIPRO")])) 0).1 exC9.id
          = some l
        ∧ ∀ x, x ∈ l ↔ x ∈ exC9.subscribedStocks ∨ x ∈ [("INFY"), ("WIPRO")])
      ∧ (∃ l, interestSet (handleClientMessage [exC9] exC9.id
          (InMsg.unsubscribeStocks (some [("INFY"), ("WIPRO")])) 0).1 exC9.id
          = some l
        ∧ ∀ x, x ∈ l ↔ x ∈ exC9.subscribedStocks ∧ x ∉ [("INFY"), ("WIPRO")])
      ∧ interestSet (handleClientMessage
          (handleClientMessage [exC9] exC9.id
            (InMsg.subscribeStocks (some [("INFY"), ("WIPRO")])) 0).1
          exC9.id (InMsg.subscribeStocks (some [("INFY"), ("WIPRO")])) 0).1
          exC9.id
        = interestSet (handleClientMessage [exC9] exC9.id
            (InMsg.subscribeStocks (some [("INFY"), ("WIPRO")])) 0).1 exC9.id
      ∧ interestSet (handleClientMessage
          (handleClientMessage [exC9] exC9.id
            (InMsg.unsubscribeStocks (some [("INFY"), ("WIPRO")])) 0).1
          exC9.id (InMsg.unsubscribeStocks (some [("INFY"), ("WIPRO")])) 0).1
          exC9.id
        = interestSet (handleClientMessage [exC9] exC9.id
            (InMsg.unsubscribeStocks (some [("INFY"), ("WIPRO")])) 0).1 exC9.id
      ∧ handleClientMessage [exC9] exC9.id (InMsg.subscribeStocks none) 0
          = ([exC9], [])
      ∧ handleClientMessage [exC9] exC9.id (InMsg.unsubscribeStocks none) 0
          = ([exC9], [])) :=
  ⟨by decide, by decide, rfl, rfl,
   C9_subscription_algebra [exC9] exC9 0 [("INFY"), ("WIPRO")] (by decide)
     (by decide) rfl rfl⟩
